import Mathlib

/-!
Shallow embedding of the rdex-oracle pallet of `stafi-node`
(`node/pallets/rdex/oracle/src/lib.rs`): price submission, quorum-triggered
median finalization, retention sweeping and epoch (period-version) control.

Storage maps of the external `rdex_token_price` pallet are modelled as
function-maps with `Option` values (a `StorageMap`/`StorageDoubleMap` read
returns `Option`, `insert` stores `some`, `remove` stores `none`).  Prices
are `u128` values modelled as `Nat` (the code only pushes, compares and
sorts them, so no overflow is possible); periods and block numbers are
`u32` values modelled as `Nat` (the only subtraction, `period -
data_reserve_period`, is guarded by `period > data_reserve_period`, so it
never wraps).
-/

/-- Modelled from the spec: account identifier of a reporter/caller
(`AccountId` is an abstract type parameter of the pallet). -/
def AccountId : Type := Nat

instance : DecidableEq AccountId := instDecidableEqNat

instance : OfNat AccountId n := ⟨(n : Nat)⟩

/-- Modelled from the spec: `RSymbol`, the identifier of a priced asset
(an enumeration defined in `node_primitives`, outside the given sources). -/
inductive RSymbol : Type
  | RDOT
  | RKSM
  | RATOM
deriving DecidableEq

/-- Modelled from the spec: dispatch origin of a call.  `ensure_signed`
succeeds exactly on `signed`, `ensure_root` exactly on `root`. -/
inductive Origin : Type
  | signed (who : AccountId)
  | root
  | unsigned
deriving DecidableEq

/-- Errors of the pallet (`decl_error!` plus the requestor pallet's
`MustBeRequestor` and the framework's `BadOrigin`). -/
inductive OracleError : Type
  | MustBeRequestor
  | PriceRepeated
  | PriceZero
  | ParamsErr
  | BadOrigin
deriving DecidableEq

/-- Events of the pallet (`decl_event!`). -/
inductive OracleEvent : Type
  | RTokenPriceEnough (symbol : RSymbol) (periodVersion period : Nat) (price : Nat)
  | SubmitRtokenPrice (who : AccountId) (symbol : RSymbol) (periodVersion period price : Nat)
  | FisPriceEnough (periodVersion period price : Nat)
  | SubmitFisPrice (who : AccountId) (periodVersion period price : Nat)
  | PeriodBlockNumberChanged (periodVersion blockNumber : Nat)
deriving DecidableEq

/-- Modelled from the spec: the external requestor pallet (ReporterRegistry),
answering `is_requestor` and `RequestorThreshold` (the quorum size). -/
structure OracleEnv : Type where
  isRequestor : AccountId → Bool
  requestorThreshold : Nat

/-- The storage of the `rdex_token_price` pallet touched by the oracle
pallet.  Double maps are curried exactly as in the source
(`RTokenPrices: double_map RSymbol, (u32, u32)`); single maps take the full
key tuple.  `PeriodVersion` is modelled from the spec as an unbounded
monotone counter (its storage declaration is outside the given sources). -/
@[ext]
structure OracleState : Type where
  RTokenPrices : RSymbol → Nat × Nat → Option (List Nat)
  AccountRTokenPrices : AccountId × RSymbol × Nat × Nat → Option Nat
  CurrentRTokenPrice : RSymbol → Option Nat
  HisRTokenPrice : RSymbol → Nat × Nat → Option Nat
  FisPrices : Nat × Nat → Option (List Nat)
  AccountFisPrices : AccountId × Nat × Nat → Option Nat
  CurrentFisPrice : Option Nat
  HisFisPrice : Nat × Nat → Option Nat
  PeriodVersion : Nat
  PeriodBlockNumber : Nat
  DataReservePeriod : Nat

/-- Point update of a single-key storage map (`insert` with `some v`,
`remove` with `none`). -/
def upd1 {α γ : Type} [DecidableEq α] (f : α → Option γ) (a : α) (v : Option γ) :
    α → Option γ :=
  fun a' => if a' = a then v else f a'

/-- Point update of a double-key storage map. -/
def upd2 {α β γ : Type} [DecidableEq α] [DecidableEq β] (f : α → β → Option γ)
    (a : α) (b : β) (v : Option γ) : α → β → Option γ :=
  fun a' b' => if a' = a ∧ b' = b then v else f a' b'

/-- Rust `prices.sort_by(|a, b| b.cmp(a))`: stable sort into descending
order. -/
def sortDesc (l : List Nat) : List Nat :=
  List.insertionSort (fun a b => b ≤ a) l

/-- `ensure_signed`. -/
def ensure_signed (o : Origin) : Except OracleError AccountId :=
  match o with
  | .signed who => .ok who
  | _ => .error .BadOrigin

/-- `ensure_root`. -/
def ensure_root (o : Origin) : Except OracleError Unit :=
  match o with
  | .root => .ok ()
  | _ => .error .BadOrigin

/-- `submit_rtoken_price(origin, symbol, period, price)`.  A call is one
all-or-nothing unit of work: an `Except.error` result carries no state, so
a failed call commits none of its writes (the transactional dispatch
boundary is host behavior, modelled from the spec). -/
def submit_rtoken_price (env : OracleEnv) (st : OracleState) (origin : Origin)
    (symbol : RSymbol) (period price : Nat) :
    Except OracleError (OracleState × List OracleEvent) :=
  match ensure_signed origin with
  | .error e => .error e
  | .ok who =>
    let period_version := st.PeriodVersion
    -- check
    if env.isRequestor who = true then
      if (st.AccountRTokenPrices (who, symbol, period_version, period)).isNone then
        if price > 0 then
          -- update prices vec
          let prices := ((st.RTokenPrices symbol (period_version, period)).getD []) ++ [price]
          let st1 : OracleState := { st with
            RTokenPrices := upd2 st.RTokenPrices symbol (period_version, period) (some prices),
            AccountRTokenPrices :=
              upd1 st.AccountRTokenPrices (who, symbol, period_version, period) (some price) }
          -- update CurrentRTokenPrice and HisRTokenPrice
          if prices.length = env.requestorThreshold then
            let sorted := sortDesc prices
            let will_use_price := (sorted.get? (sorted.length / 2)).getD 0
            if will_use_price > 0 then
              let st2 : OracleState := { st1 with
                CurrentRTokenPrice := upd1 st1.CurrentRTokenPrice symbol (some will_use_price),
                HisRTokenPrice :=
                  upd2 st1.HisRTokenPrice symbol (period_version, period) (some will_use_price) }
              -- clear unused data
              let data_reserve_period := st2.DataReservePeriod
              let st3 : OracleState :=
                if period > data_reserve_period then
                  { st2 with
                    RTokenPrices :=
                      upd2 st2.RTokenPrices symbol (period_version, period - data_reserve_period) none,
                    AccountRTokenPrices :=
                      upd1 st2.AccountRTokenPrices
                        (who, symbol, period_version, period - data_reserve_period) none }
                else st2
              .ok (st3,
                [.RTokenPriceEnough symbol period_version period will_use_price,
                 .SubmitRtokenPrice who symbol period_version period price])
            else .error .PriceZero
          else .ok (st1, [.SubmitRtokenPrice who symbol period_version period price])
        else .error .ParamsErr
      else .error .PriceRepeated
    else .error .MustBeRequestor

/-- `submit_fis_price(origin, period, price)`. -/
def submit_fis_price (env : OracleEnv) (st : OracleState) (origin : Origin)
    (period price : Nat) : Except OracleError (OracleState × List OracleEvent) :=
  match ensure_signed origin with
  | .error e => .error e
  | .ok who =>
    let period_version := st.PeriodVersion
    -- check
    if env.isRequestor who = true then
      if (st.AccountFisPrices (who, period_version, period)).isNone then
        if price > 0 then
          -- update prices vec
          let prices := ((st.FisPrices (period_version, period)).getD []) ++ [price]
          let st1 : OracleState := { st with
            FisPrices := upd1 st.FisPrices (period_version, period) (some prices),
            AccountFisPrices :=
              upd1 st.AccountFisPrices (who, period_version, period) (some price) }
          -- update CurrentFisPrice and HisFisPrice
          if prices.length = env.requestorThreshold then
            let sorted := sortDesc prices
            let will_use_price := (sorted.get? (sorted.length / 2)).getD 0
            if will_use_price > 0 then
              let st2 : OracleState := { st1 with
                CurrentFisPrice := some will_use_price,
                HisFisPrice :=
                  upd1 st1.HisFisPrice (period_version, period) (some will_use_price) }
              -- clear unused data
              let data_reserve_period := st2.DataReservePeriod
              let st3 : OracleState :=
                if period > data_reserve_period then
                  { st2 with
                    FisPrices := upd1 st2.FisPrices (period_version, period - data_reserve_period) none,
                    AccountFisPrices :=
                      upd1 st2.AccountFisPrices
                        (who, period_version, period - data_reserve_period) none }
                else st2
              .ok (st3,
                [.FisPriceEnough period_version period will_use_price,
                 .SubmitFisPrice who period_version period price])
            else .error .PriceZero
          else .ok (st1, [.SubmitFisPrice who period_version period price])
        else .error .ParamsErr
      else .error .PriceRepeated
    else .error .MustBeRequestor

/-- `set_period_block_number(origin, block_number)`. -/
def set_period_block_number (st : OracleState) (origin : Origin) (block_number : Nat) :
    Except OracleError (OracleState × List OracleEvent) :=
  match ensure_root origin with
  | .error e => .error e
  | .ok _ =>
    if block_number > 0 then
      let st1 : OracleState := { st with
        PeriodBlockNumber := block_number,
        PeriodVersion := st.PeriodVersion + 1 }
      .ok (st1, [.PeriodBlockNumberChanged st1.PeriodVersion block_number])
    else .error .ParamsErr

/-- `set_data_reserve_period(origin, reserve_period)`. -/
def set_data_reserve_period (st : OracleState) (origin : Origin) (reserve_period : Nat) :
    Except OracleError (OracleState × List OracleEvent) :=
  match ensure_root origin with
  | .error e => .error e
  | .ok _ =>
    if reserve_period > 0 then
      .ok ({ st with DataReservePeriod := reserve_period }, [])
    else .error .ParamsErr

/-- The genesis state: all maps empty, scalar storage at its configured
initial values. -/
def initState (pv pbn drp : Nat) : OracleState where
  RTokenPrices := fun _ _ => none
  AccountRTokenPrices := fun _ => none
  CurrentRTokenPrice := fun _ => none
  HisRTokenPrice := fun _ _ => none
  FisPrices := fun _ => none
  AccountFisPrices := fun _ => none
  CurrentFisPrice := none
  HisFisPrice := fun _ => none
  PeriodVersion := pv
  PeriodBlockNumber := pbn
  DataReservePeriod := drp

/-- One successful dispatch of any of the pallet's four calls, under any
environment (the external requestor set and threshold may change between
calls). -/
inductive Step : OracleState → OracleState → Prop
  | rtoken (env : OracleEnv) (st : OracleState) (o : Origin) (symbol : RSymbol)
      (period price : Nat) (st' : OracleState) (evs : List OracleEvent) :
      submit_rtoken_price env st o symbol period price = .ok (st', evs) → Step st st'
  | fis (env : OracleEnv) (st : OracleState) (o : Origin) (period price : Nat)
      (st' : OracleState) (evs : List OracleEvent) :
      submit_fis_price env st o period price = .ok (st', evs) → Step st st'
  | periodBlock (st : OracleState) (o : Origin) (block_number : Nat)
      (st' : OracleState) (evs : List OracleEvent) :
      set_period_block_number st o block_number = .ok (st', evs) → Step st st'
  | reservePeriod (st : OracleState) (o : Origin) (reserve_period : Nat)
      (st' : OracleState) (evs : List OracleEvent) :
      set_data_reserve_period st o reserve_period = .ok (st', evs) → Step st st'

/-- A state is reachable when some sequence of successful calls leads to it
from a genesis state. -/
def Reachable (st : OracleState) : Prop :=
  ∃ pv pbn drp, Relation.ReflTransGen Step (initState pv pbn drp) st

instance : IsTotal Nat (fun a b : Nat => b ≤ a) := ⟨fun a b => le_total b a⟩

instance : IsTrans Nat (fun a b : Nat => b ≤ a) := ⟨fun _ _ _ h1 h2 => le_trans h2 h1⟩

/-! ### Positivity invariant of the stored prices -/

/-- Every price stored anywhere (bucket value lists, canonical slots,
historical archives) is strictly positive. -/
structure PositivePrices (st : OracleState) : Prop where
  rtokenLists : ∀ s k l, st.RTokenPrices s k = some l → ∀ x ∈ l, 0 < x
  fisLists : ∀ k l, st.FisPrices k = some l → ∀ x ∈ l, 0 < x
  currentRToken : ∀ s v, st.CurrentRTokenPrice s = some v → 0 < v
  hisRToken : ∀ s k v, st.HisRTokenPrice s k = some v → 0 < v
  currentFis : ∀ v, st.CurrentFisPrice = some v → 0 < v
  hisFis : ∀ k v, st.HisFisPrice k = some v → 0 < v

/-! ### Single-call effect lemmas for rtoken submissions -/

/-- The value list currently stored for the bucket
`(symbol, PeriodVersion, period)`. -/
def bucketList (st : OracleState) (symbol : RSymbol) (period : Nat) : List Nat :=
  (st.RTokenPrices symbol (st.PeriodVersion, period)).getD []

/-- Whether an event is the threshold-reached signal of the given bucket. -/
def isEnoughEvent (symbol : RSymbol) (pv period : Nat) : OracleEvent → Bool
  | .RTokenPriceEnough s v p _ => s == symbol && v == pv && p == period
  | _ => false

/-- Whether a call's event list contains the threshold-reached signal of
the given bucket (the observable mark of the finalization branch). -/
def firesFor (symbol : RSymbol) (pv period : Nat) (evs : List OracleEvent) : Bool :=
  evs.any (isEnoughEvent symbol pv period)

/-- A sequence of accepted rtoken submissions to the single bucket
`(symbol, PeriodVersion, period)`, recording each call's emitted events. -/
inductive SubmitChain (env : OracleEnv) (symbol : RSymbol) (period : Nat) :
    OracleState → OracleState → List (List OracleEvent) → Prop
  | nil (st : OracleState) : SubmitChain env symbol period st st []
  | cons (st st' st'' : OracleState) (who : AccountId) (price : Nat)
      (evs : List OracleEvent) (evss : List (List OracleEvent)) :
      submit_rtoken_price env st (.signed who) symbol period price = .ok (st', evs) →
      SubmitChain env symbol period st' st'' evss →
      SubmitChain env symbol period st st'' (evs :: evss)

/-! ### Concrete example environments and states -/

/-- Extract the post-state of a successful dispatch result. -/
def okState (r : Except OracleError (OracleState × List OracleEvent))
    (fallback : OracleState) : OracleState :=
  match r with
  | .ok p => p.1
  | .error _ => fallback

/-- Everyone is a requestor; quorum threshold 1. -/
def envT1 : OracleEnv := { isRequestor := fun _ => true, requestorThreshold := 1 }

/-- Everyone is a requestor; quorum threshold 2. -/
def envT2 : OracleEnv := { isRequestor := fun _ => true, requestorThreshold := 2 }

/-- Everyone is a requestor; quorum threshold 3. -/
def envT3 : OracleEnv := { isRequestor := fun _ => true, requestorThreshold := 3 }

/-- State after reporter 0 submits price 5 for `(RDOT, 0, 1)` under
threshold 1 and retention window 0: the call finalizes and its sweep
removes the bucket's own list and the reporter's own record. -/
def stC1a : OracleState :=
  okState (submit_rtoken_price envT1 (initState 0 0 0) (.signed 0) .RDOT 1 5)
    (initState 0 0 0)

/-- State after reporter 0 re-submits price 7 to the same bucket: the
bucket finalizes a second time. -/
def stC1b : OracleState :=
  okState (submit_rtoken_price envT1 stC1a (.signed 0) .RDOT 1 7) stC1a

/-- State after reporter 0 submits price 100 for `(RDOT, 0, 1)` under
threshold 2 and retention window 5 (no finalization yet). -/
def stW1 : OracleState :=
  okState (submit_rtoken_price envT2 (initState 0 0 5) (.signed 0) .RDOT 1 100)
    (initState 0 0 5)

/-- State after reporter 1 then submits price 200 (the bucket finalizes). -/
def stW2 : OracleState :=
  okState (submit_rtoken_price envT2 stW1 (.signed 1) .RDOT 1 200) stW1

/-- State after reporter 0 submits price 100 for `(RDOT, 0, 1)` under
threshold 3 and retention window 10. -/
def stM1 : OracleState :=
  okState (submit_rtoken_price envT3 (initState 0 0 10) (.signed 0) .RDOT 1 100)
    (initState 0 0 10)

/-- State after reporter 1 then submits price 200. -/
def stM2 : OracleState :=
  okState (submit_rtoken_price envT3 stM1 (.signed 1) .RDOT 1 200) stM1

/-- State after reporter 2 then submits price 150 (quorum 3 reached). -/
def stM3 : OracleState :=
  okState (submit_rtoken_price envT3 stM2 (.signed 2) .RDOT 1 150) stM2

/-- A crafted state whose bucket `(RDOT, 0, 1)` already stores the value 0
(not reachable through the gate — used to exhibit the `PriceZero` branch). -/
def stZ : OracleState :=
  { initState 0 0 10 with
    RTokenPrices := upd2 (initState 0 0 10).RTokenPrices .RDOT (0, 1) (some [0]) }

/-- State after reporter 0 submits price 5 for `(RDOT, 0, 2)` under
threshold 1 and retention window 1: the bucket finalizes and the sweep
purges period 1. -/
def stC5 : OracleState :=
  okState (submit_rtoken_price envT1 (initState 0 0 1) (.signed 0) .RDOT 2 5)
    (initState 0 0 1)

/-! ### C7 -/

/-- Modelled from the spec: the base/reference asset is one reserved
sentinel symbol aggregated through an independent canonical slot but the
identical algorithm; `liftFis s0 st` re-reads the fis storage namespaces
as the rtoken namespaces of the sentinel symbol `s0` (all other symbols
empty). -/
def liftFis (s0 : RSymbol) (st : OracleState) : OracleState where
  RTokenPrices := fun s k => if s = s0 then st.FisPrices k else none
  AccountRTokenPrices := fun k =>
    if k.2.1 = s0 then st.AccountFisPrices (k.1, k.2.2.1, k.2.2.2) else none
  CurrentRTokenPrice := fun s => if s = s0 then st.CurrentFisPrice else none
  HisRTokenPrice := fun s k => if s = s0 then st.HisFisPrice k else none
  FisPrices := fun _ => none
  AccountFisPrices := fun _ => none
  CurrentFisPrice := none
  HisFisPrice := fun _ => none
  PeriodVersion := st.PeriodVersion
  PeriodBlockNumber := st.PeriodBlockNumber
  DataReservePeriod := st.DataReservePeriod

/-- Renaming of the fis-flavoured events into the rtoken-flavoured events
of the sentinel symbol. -/
def fisEventToRtoken (s0 : RSymbol) : OracleEvent → OracleEvent
  | .FisPriceEnough v p pr => .RTokenPriceEnough s0 v p pr
  | .SubmitFisPrice a v p pr => .SubmitRtokenPrice a s0 v p pr
  | e => e

/-! ### Basic lemmas about the storage-map updates and the sort -/

theorem upd1_self {α γ : Type} [DecidableEq α] (f : α → Option γ) (a : α) (v : Option γ) :
    upd1 f a v a = v := by
  simp [upd1]

theorem upd1_ne {α γ : Type} [DecidableEq α] (f : α → Option γ) (a a' : α) (v : Option γ)
    (h : a' ≠ a) : upd1 f a v a' = f a' := by
  simp [upd1, h]

theorem upd2_self {α β γ : Type} [DecidableEq α] [DecidableEq β] (f : α → β → Option γ)
    (a : α) (b : β) (v : Option γ) : upd2 f a b v a b = v := by
  simp [upd2]

theorem upd2_ne {α β γ : Type} [DecidableEq α] [DecidableEq β] (f : α → β → Option γ)
    (a a' : α) (b b' : β) (v : Option γ) (h : ¬(a' = a ∧ b' = b)) :
    upd2 f a b v a' b' = f a' b' := by
  simp only [upd2, if_neg h]

theorem upd1_cases {α γ : Type} [DecidableEq α] (f : α → Option γ) (a a' : α) (v : Option γ) :
    upd1 f a v a' = v ∨ upd1 f a v a' = f a' := by
  unfold upd1
  split_ifs <;> simp

theorem upd2_cases {α β γ : Type} [DecidableEq α] [DecidableEq β] (f : α → β → Option γ)
    (a a' : α) (b b' : β) (v : Option γ) :
    upd2 f a b v a' b' = v ∨ upd2 f a b v a' b' = f a' b' := by
  unfold upd2
  split_ifs <;> simp

theorem mem_getD_append {o : Option (List Nat)} {price x : Nat}
    (hx : x ∈ o.getD [] ++ [price]) :
    (∃ l0, o = some l0 ∧ x ∈ l0) ∨ x = price := by
  rcases List.mem_append.mp hx with hx | hx
  · cases o with
    | none => simp at hx
    | some l0 => exact Or.inl ⟨l0, rfl, by simpa using hx⟩
  · right
    simpa using hx

theorem sortDesc_perm (l : List Nat) : (sortDesc l).Perm l :=
  List.perm_insertionSort _ l

theorem sortDesc_sorted (l : List Nat) : List.Sorted (fun a b => b ≤ a) (sortDesc l) :=
  List.sorted_insertionSort _ l

theorem sortDesc_length (l : List Nat) : (sortDesc l).length = l.length :=
  (sortDesc_perm l).length_eq

/-- The median candidate selected by the finalization branch is an element
of the submitted value list whenever that list is non-empty. -/
theorem median_mem (prices : List Nat) (hne : prices ≠ []) :
    ∃ v, (sortDesc prices).get? ((sortDesc prices).length / 2) = some v ∧ v ∈ prices := by
  have hlen : 0 < (sortDesc prices).length := by
    rw [sortDesc_length]
    exact List.length_pos.mpr hne
  have hidx : (sortDesc prices).length / 2 < (sortDesc prices).length :=
    Nat.div_lt_self hlen (by norm_num)
  refine ⟨(sortDesc prices).get ⟨(sortDesc prices).length / 2, hidx⟩,
      List.get?_eq_get hidx, ?_⟩
  exact (sortDesc_perm prices).mem_iff.mp (List.get_mem _ _ _)

/-- If every submitted value is positive, the selected median candidate is
positive (in particular the `unwrap_or(0)` default is never taken). -/
theorem median_pos (prices : List Nat) (hne : prices ≠ [])
    (hpos : ∀ x ∈ prices, 0 < x) :
    0 < ((sortDesc prices).get? ((sortDesc prices).length / 2)).getD 0 := by
  obtain ⟨v, hv, hmem⟩ := median_mem prices hne
  rw [hv]
  exact hpos v hmem

theorem submit_rtoken_preserves_positive (env : OracleEnv) (st : OracleState) (o : Origin)
    (symbol : RSymbol) (period price : Nat) (st' : OracleState) (evs : List OracleEvent)
    (h : submit_rtoken_price env st o symbol period price = .ok (st', evs))
    (inv : PositivePrices st) : PositivePrices st' := by
  match o with
  | .root => simp [submit_rtoken_price, ensure_signed] at h
  | .unsigned => simp [submit_rtoken_price, ensure_signed] at h
  | .signed who =>
    unfold submit_rtoken_price ensure_signed at h
    simp only [] at h
    have hlists : ∀ s k l,
        upd2 st.RTokenPrices symbol (st.PeriodVersion, period)
          (some ((st.RTokenPrices symbol (st.PeriodVersion, period)).getD [] ++ [price])) s k
            = some l →
        0 < price → ∀ x ∈ l, 0 < x := by
      intro s k l hl hp x hx
      rcases upd2_cases st.RTokenPrices symbol s (st.PeriodVersion, period) k
          (some ((st.RTokenPrices symbol (st.PeriodVersion, period)).getD [] ++ [price])) with
        hc | hc
      · rw [hc] at hl
        cases hl
        rcases mem_getD_append hx with ⟨l0, hl0, hxl0⟩ | rfl
        · exact inv.rtokenLists _ _ _ hl0 x hxl0
        · exact hp
      · rw [hc] at hl
        exact inv.rtokenLists _ _ _ hl x hx
    split_ifs at h with h1 h2 h3 h4 h5 h6 <;>
      [skip; skip; skip] <;>
      (injection h with h'
       injection h' with hst hevs
       subst hst)
    · refine ⟨?_, inv.fisLists, ?_, ?_, inv.currentFis, inv.hisFis⟩
      · intro s k l hl x hx
        simp only [] at hl
        rcases upd2_cases
            (upd2 st.RTokenPrices symbol (st.PeriodVersion, period)
              (some ((st.RTokenPrices symbol (st.PeriodVersion, period)).getD [] ++ [price])))
            symbol s (st.PeriodVersion, period - st.DataReservePeriod) k none with hc | hc
        · rw [hc] at hl
          cases hl
        · rw [hc] at hl
          exact hlists s k l hl h3 x hx
      · intro s v hv
        simp only [] at hv
        rcases upd1_cases st.CurrentRTokenPrice symbol s
            (some (((sortDesc ((st.RTokenPrices symbol (st.PeriodVersion, period)).getD []
              ++ [price])).get? ((sortDesc ((st.RTokenPrices symbol
              (st.PeriodVersion, period)).getD [] ++ [price])).length / 2)).getD 0)) with hc | hc
        · rw [hc] at hv
          cases hv
          exact h5
        · rw [hc] at hv
          exact inv.currentRToken _ _ hv
      · intro s k v hv
        simp only [] at hv
        rcases upd2_cases st.HisRTokenPrice symbol s (st.PeriodVersion, period) k
            (some (((sortDesc ((st.RTokenPrices symbol (st.PeriodVersion, period)).getD []
              ++ [price])).get? ((sortDesc ((st.RTokenPrices symbol
              (st.PeriodVersion, period)).getD [] ++ [price])).length / 2)).getD 0)) with hc | hc
        · rw [hc] at hv
          cases hv
          exact h5
        · rw [hc] at hv
          exact inv.hisRToken _ _ _ hv
    · refine ⟨?_, inv.fisLists, ?_, ?_, inv.currentFis, inv.hisFis⟩
      · intro s k l hl x hx
        exact hlists s k l hl h3 x hx
      · intro s v hv
        simp only [] at hv
        rcases upd1_cases st.CurrentRTokenPrice symbol s
            (some (((sortDesc ((st.RTokenPrices symbol (st.PeriodVersion, period)).getD []
              ++ [price])).get? ((sortDesc ((st.RTokenPrices symbol
              (st.PeriodVersion, period)).getD [] ++ [price])).length / 2)).getD 0)) with hc | hc
        · rw [hc] at hv
          cases hv
          exact h5
        · rw [hc] at hv
          exact inv.currentRToken _ _ hv
      · intro s k v hv
        simp only [] at hv
        rcases upd2_cases st.HisRTokenPrice symbol s (st.PeriodVersion, period) k
            (some (((sortDesc ((st.RTokenPrices symbol (st.PeriodVersion, period)).getD []
              ++ [price])).get? ((sortDesc ((st.RTokenPrices symbol
              (st.PeriodVersion, period)).getD [] ++ [price])).length / 2)).getD 0)) with hc | hc
        · rw [hc] at hv
          cases hv
          exact h5
        · rw [hc] at hv
          exact inv.hisRToken _ _ _ hv
    · exact ⟨fun s k l hl => hlists s k l hl h3, inv.fisLists, inv.currentRToken,
        inv.hisRToken, inv.currentFis, inv.hisFis⟩

theorem submit_fis_preserves_positive (env : OracleEnv) (st : OracleState) (o : Origin)
    (period price : Nat) (st' : OracleState) (evs : List OracleEvent)
    (h : submit_fis_price env st o period price = .ok (st', evs))
    (inv : PositivePrices st) : PositivePrices st' := by
  match o with
  | .root => simp [submit_fis_price, ensure_signed] at h
  | .unsigned => simp [submit_fis_price, ensure_signed] at h
  | .signed who =>
    unfold submit_fis_price ensure_signed at h
    simp only [] at h
    have hlists : ∀ k l,
        upd1 st.FisPrices (st.PeriodVersion, period)
          (some ((st.FisPrices (st.PeriodVersion, period)).getD [] ++ [price])) k = some l →
        0 < price → ∀ x ∈ l, 0 < x := by
      intro k l hl hp x hx
      rcases upd1_cases st.FisPrices (st.PeriodVersion, period) k
          (some ((st.FisPrices (st.PeriodVersion, period)).getD [] ++ [price])) with hc | hc
      · rw [hc] at hl
        cases hl
        rcases mem_getD_append hx with ⟨l0, hl0, hxl0⟩ | rfl
        · exact inv.fisLists _ _ hl0 x hxl0
        · exact hp
      · rw [hc] at hl
        exact inv.fisLists _ _ hl x hx
    split_ifs at h with h1 h2 h3 h4 h5 h6 <;>
      [skip; skip; skip] <;>
      (injection h with h'
       injection h' with hst hevs
       subst hst)
    · refine ⟨inv.rtokenLists, ?_, inv.currentRToken, inv.hisRToken, ?_, ?_⟩
      · intro k l hl x hx
        simp only [] at hl
        rcases upd1_cases
            (upd1 st.FisPrices (st.PeriodVersion, period)
              (some ((st.FisPrices (st.PeriodVersion, period)).getD [] ++ [price])))
            (st.PeriodVersion, period - st.DataReservePeriod) k none with hc | hc
        · rw [hc] at hl
          cases hl
        · rw [hc] at hl
          exact hlists k l hl h3 x hx
      · intro v hv
        simp only [] at hv
        cases hv
        exact h5
      · intro k v hv
        simp only [] at hv
        rcases upd1_cases st.HisFisPrice (st.PeriodVersion, period) k
            (some (((sortDesc ((st.FisPrices (st.PeriodVersion, period)).getD []
              ++ [price])).get? ((sortDesc ((st.FisPrices
              (st.PeriodVersion, period)).getD [] ++ [price])).length / 2)).getD 0)) with hc | hc
        · rw [hc] at hv
          cases hv
          exact h5
        · rw [hc] at hv
          exact inv.hisFis _ _ hv
    · refine ⟨inv.rtokenLists, ?_, inv.currentRToken, inv.hisRToken, ?_, ?_⟩
      · intro k l hl x hx
        exact hlists k l hl h3 x hx
      · intro v hv
        simp only [] at hv
        cases hv
        exact h5
      · intro k v hv
        simp only [] at hv
        rcases upd1_cases st.HisFisPrice (st.PeriodVersion, period) k
            (some (((sortDesc ((st.FisPrices (st.PeriodVersion, period)).getD []
              ++ [price])).get? ((sortDesc ((st.FisPrices
              (st.PeriodVersion, period)).getD [] ++ [price])).length / 2)).getD 0)) with hc | hc
        · rw [hc] at hv
          cases hv
          exact h5
        · rw [hc] at hv
          exact inv.hisFis _ _ hv
    · exact ⟨inv.rtokenLists, fun k l hl => hlists k l hl h3, inv.currentRToken,
        inv.hisRToken, inv.currentFis, inv.hisFis⟩

theorem set_period_block_number_preserves_positive (st : OracleState) (o : Origin)
    (block_number : Nat) (st' : OracleState) (evs : List OracleEvent)
    (h : set_period_block_number st o block_number = .ok (st', evs))
    (inv : PositivePrices st) : PositivePrices st' := by
  match o with
  | .signed who => simp [set_period_block_number, ensure_root] at h
  | .unsigned => simp [set_period_block_number, ensure_root] at h
  | .root =>
    unfold set_period_block_number ensure_root at h
    simp only [] at h
    split_ifs at h with h1
    injection h with h'
    injection h' with hst hevs
    subst hst
    exact ⟨inv.rtokenLists, inv.fisLists, inv.currentRToken, inv.hisRToken,
      inv.currentFis, inv.hisFis⟩

theorem set_data_reserve_period_preserves_positive (st : OracleState) (o : Origin)
    (reserve_period : Nat) (st' : OracleState) (evs : List OracleEvent)
    (h : set_data_reserve_period st o reserve_period = .ok (st', evs))
    (inv : PositivePrices st) : PositivePrices st' := by
  match o with
  | .signed who => simp [set_data_reserve_period, ensure_root] at h
  | .unsigned => simp [set_data_reserve_period, ensure_root] at h
  | .root =>
    unfold set_data_reserve_period ensure_root at h
    simp only [] at h
    split_ifs at h with h1
    injection h with h'
    injection h' with hst hevs
    subst hst
    exact ⟨inv.rtokenLists, inv.fisLists, inv.currentRToken, inv.hisRToken,
      inv.currentFis, inv.hisFis⟩

theorem step_preserves_positive {st st' : OracleState} (h : Step st st')
    (inv : PositivePrices st) : PositivePrices st' := by
  cases h with
  | rtoken env st o symbol period price st' evs h =>
    exact submit_rtoken_preserves_positive env st o symbol period price st' evs h inv
  | fis env st o period price st' evs h =>
    exact submit_fis_preserves_positive env st o period price st' evs h inv
  | periodBlock st o block_number st' evs h =>
    exact set_period_block_number_preserves_positive st o block_number st' evs h inv
  | reservePeriod st o reserve_period st' evs h =>
    exact set_data_reserve_period_preserves_positive st o reserve_period st' evs h inv

theorem init_positive (pv pbn drp : Nat) : PositivePrices (initState pv pbn drp) := by
  refine ⟨?_, ?_, ?_, ?_, ?_, ?_⟩ <;> simp [initState]

theorem reachable_positive {st : OracleState} (h : Reachable st) : PositivePrices st := by
  obtain ⟨pv, pbn, drp, hsteps⟩ := h
  induction hsteps with
  | refl => exact init_positive pv pbn drp
  | tail _ hstep ih => exact step_preserves_positive hstep ih

/-- A successful rtoken submission emits the threshold-reached signal for
its bucket exactly when it brings the stored value-list length to the
quorum threshold. -/
theorem submit_rtoken_fires_iff (env : OracleEnv) (st : OracleState) (o : Origin)
    (symbol : RSymbol) (period price : Nat) (st' : OracleState) (evs : List OracleEvent)
    (h : submit_rtoken_price env st o symbol period price = .ok (st', evs)) :
    (firesFor symbol st.PeriodVersion period evs = true ↔
      (bucketList st symbol period ++ [price]).length = env.requestorThreshold) := by
  match o with
  | .root => simp [submit_rtoken_price, ensure_signed] at h
  | .unsigned => simp [submit_rtoken_price, ensure_signed] at h
  | .signed who =>
    unfold submit_rtoken_price ensure_signed at h
    simp only [] at h
    split_ifs at h with h1 h2 h3 h4 h5 h6 <;>
      [skip; skip; skip] <;>
      (injection h with h'
       injection h' with hst hevs
       subst hevs)
    · exact ⟨fun _ => h4, fun _ => by simp [firesFor, isEnoughEvent]⟩
    · exact ⟨fun _ => h4, fun _ => by simp [firesFor, isEnoughEvent]⟩
    · exact ⟨fun hc => absurd hc (by simp [firesFor, isEnoughEvent]),
        fun hc => absurd hc h4⟩

/-- Effect of one successful rtoken submission on the scalar storage, on
its own bucket, and (when it does not finalize) on the canonical and
historical stores. -/
theorem submit_rtoken_step_effects (env : OracleEnv) (st : OracleState) (o : Origin)
    (symbol : RSymbol) (period price : Nat) (st' : OracleState) (evs : List OracleEvent)
    (h : submit_rtoken_price env st o symbol period price = .ok (st', evs)) :
    st'.PeriodVersion = st.PeriodVersion ∧
    st'.DataReservePeriod = st.DataReservePeriod ∧
    ((0 < st.DataReservePeriod ∨ period ≤ st.DataReservePeriod) →
      st'.RTokenPrices symbol (st.PeriodVersion, period)
        = some (bucketList st symbol period ++ [price])) ∧
    ((bucketList st symbol period ++ [price]).length ≠ env.requestorThreshold →
      st'.CurrentRTokenPrice = st.CurrentRTokenPrice ∧
      st'.HisRTokenPrice = st.HisRTokenPrice) := by
  match o with
  | .root => simp [submit_rtoken_price, ensure_signed] at h
  | .unsigned => simp [submit_rtoken_price, ensure_signed] at h
  | .signed who =>
    unfold submit_rtoken_price ensure_signed at h
    simp only [] at h
    split_ifs at h with h1 h2 h3 h4 h5 h6 <;>
      [skip; skip; skip] <;>
      (injection h with h'
       injection h' with hst hevs
       subst hst)
    · refine ⟨rfl, rfl, ?_, fun hne => absurd h4 hne⟩
      intro hkey
      have hdrp : 0 < st.DataReservePeriod := by
        rcases hkey with hk | hk
        · exact hk
        · omega
      have hne : ¬(symbol = symbol ∧
          ((st.PeriodVersion, period) : Nat × Nat)
            = (st.PeriodVersion, period - st.DataReservePeriod)) := by
        rintro ⟨-, hk⟩
        have := congrArg Prod.snd hk
        simp at this
        omega
      show upd2 _ symbol (st.PeriodVersion, period - st.DataReservePeriod) none symbol
          (st.PeriodVersion, period) = _
      rw [upd2_ne _ _ _ _ _ _ hne]
      exact upd2_self _ _ _ _
    · refine ⟨rfl, rfl, ?_, fun hne => absurd h4 hne⟩
      intro _
      exact upd2_self _ _ _ _
    · refine ⟨rfl, rfl, ?_, fun _ => ⟨rfl, rfl⟩⟩
      intro _
      exact upd2_self _ _ _ _

/-- Along a chain of submissions to one bucket, the period version and the
retention window are unchanged and (when the retention sweep cannot hit the
bucket itself) the bucket's value-list length grows by one per call. -/
theorem submitChain_effects (env : OracleEnv) (symbol : RSymbol) (period : Nat)
    (st st'' : OracleState) (evss : List (List OracleEvent))
    (hch : SubmitChain env symbol period st st'' evss)
    (hkey : 0 < st.DataReservePeriod ∨ period ≤ st.DataReservePeriod) :
    st''.PeriodVersion = st.PeriodVersion ∧
    st''.DataReservePeriod = st.DataReservePeriod ∧
    (bucketList st'' symbol period).length
      = (bucketList st symbol period).length + evss.length := by
  induction hch with
  | nil st => exact ⟨rfl, rfl, by simp⟩
  | cons st st' st'' who price evs evss hsub hrest ih =>
    obtain ⟨hpv, hdrp, hbucket, -⟩ :=
      submit_rtoken_step_effects env st _ symbol period price st' evs hsub
    have hkey' : 0 < st'.DataReservePeriod ∨ period ≤ st'.DataReservePeriod := by
      rw [hdrp]
      exact hkey
    obtain ⟨ihpv, ihdrp, ihlen⟩ := ih hkey'
    refine ⟨ihpv.trans hpv, ihdrp.trans hdrp, ?_⟩
    have hlen' : (bucketList st' symbol period).length
        = (bucketList st symbol period).length + 1 := by
      unfold bucketList
      rw [hpv, hbucket hkey]
      simp [bucketList]
    rw [ihlen, hlen']
    simp only [List.length_cons]
    omega

/-- Once the bucket's value-list length has reached (or passed) the quorum
threshold, no later submission to that bucket fires finalization again, and
the canonical and historical slots of the bucket stay untouched. -/
theorem submitChain_no_fire (env : OracleEnv) (symbol : RSymbol) (period : Nat)
    (st st'' : OracleState) (evss : List (List OracleEvent))
    (hch : SubmitChain env symbol period st st'' evss)
    (hkey : 0 < st.DataReservePeriod ∨ period ≤ st.DataReservePeriod)
    (hlen : env.requestorThreshold ≤ (bucketList st symbol period).length) :
    evss.countP (firesFor symbol st.PeriodVersion period) = 0 ∧
    st''.CurrentRTokenPrice = st.CurrentRTokenPrice ∧
    st''.HisRTokenPrice = st.HisRTokenPrice := by
  induction hch with
  | nil st => exact ⟨rfl, rfl, rfl⟩
  | cons st st' st'' who price evs evss hsub hrest ih =>
    obtain ⟨hpv, hdrp, hbucket, hframe⟩ :=
      submit_rtoken_step_effects env st _ symbol period price st' evs hsub
    have hne : (bucketList st symbol period ++ [price]).length ≠ env.requestorThreshold := by
      simp only [List.length_append, List.length_cons, List.length_nil]
      omega
    have hfire : firesFor symbol st.PeriodVersion period evs = false := by
      rcases Bool.eq_false_or_eq_true (firesFor symbol st.PeriodVersion period evs) with hb | hb
      · exact absurd ((submit_rtoken_fires_iff env st _ symbol period price st' evs hsub).mp hb)
          hne
      · exact hb
    have hkey' : 0 < st'.DataReservePeriod ∨ period ≤ st'.DataReservePeriod := by
      rw [hdrp]
      exact hkey
    have hlen' : env.requestorThreshold ≤ (bucketList st' symbol period).length := by
      have : (bucketList st' symbol period).length
          = (bucketList st symbol period).length + 1 := by
        unfold bucketList
        rw [hpv, hbucket hkey]
        simp [bucketList]
      omega
    obtain ⟨ihcount, ihcur, ihhis⟩ := ih hkey' hlen'
    obtain ⟨hcur, hhis⟩ := hframe hne
    rw [hpv] at ihcount
    refine ⟨?_, ihcur.trans hcur, ihhis.trans hhis⟩
    simp [List.countP_cons, hfire, ihcount]

/-- Along any sequence of accepted submissions to one bucket (with the
retention sweep unable to hit the bucket itself), the finalization branch
fires at most once. -/
theorem submitChain_at_most_one (env : OracleEnv) (symbol : RSymbol) (period : Nat)
    (st st'' : OracleState) (evss : List (List OracleEvent))
    (hch : SubmitChain env symbol period st st'' evss)
    (hkey : 0 < st.DataReservePeriod ∨ period ≤ st.DataReservePeriod) :
    evss.countP (firesFor symbol st.PeriodVersion period) ≤ 1 := by
  induction hch with
  | nil st => simp
  | cons st st' st'' who price evs evss hsub hrest ih =>
    obtain ⟨hpv, hdrp, hbucket, hframe⟩ :=
      submit_rtoken_step_effects env st _ symbol period price st' evs hsub
    have hkey' : 0 < st'.DataReservePeriod ∨ period ≤ st'.DataReservePeriod := by
      rw [hdrp]
      exact hkey
    have hlen' : (bucketList st' symbol period).length
        = (bucketList st symbol period).length + 1 := by
      unfold bucketList
      rw [hpv, hbucket hkey]
      simp [bucketList]
    rw [List.countP_cons]
    by_cases hb : (bucketList st symbol period ++ [price]).length = env.requestorThreshold
    · have hfire : firesFor symbol st.PeriodVersion period evs = true :=
        (submit_rtoken_fires_iff env st _ symbol period price st' evs hsub).mpr hb
      have hlen'' : env.requestorThreshold ≤ (bucketList st' symbol period).length := by
        simp only [List.length_append, List.length_cons, List.length_nil] at hb
        omega
      obtain ⟨hcount0, -, -⟩ :=
        submitChain_no_fire env symbol period st' st'' evss hrest hkey' hlen''
      rw [hpv] at hcount0
      rw [hcount0, hfire]
      simp
    · have hfire : firesFor symbol st.PeriodVersion period evs = false := by
        rcases Bool.eq_false_or_eq_true (firesFor symbol st.PeriodVersion period evs) with
          hb' | hb'
        · exact absurd
            ((submit_rtoken_fires_iff env st _ symbol period price st' evs hsub).mp hb') hb
        · exact hb'
      rw [hfire]
      have := ih hkey'
      rw [hpv] at this
      simpa using this

/-! ### C1 -/

/-- **C1, counterexample.**  With quorum threshold fixed at 1 and retention
window (`DataReservePeriod`) 0, reporter 0's accepted submission of price 5
to bucket `(RDOT, 0, 1)` finalizes the bucket — and its retention sweep then
removes the bucket's own value list and the reporter's own per-reporter
record, so the same reporter's second accepted submission of price 7 to the
same bucket finalizes it a second time, emitting the threshold-reached
signal again and overwriting both `CurrentRTokenPrice` and
`HisRTokenPrice`.  This refutes the claim that finalization executes
exactly once per bucket and that later accepted submissions leave the
canonical and historical slots unchanged. -/
theorem c1_finalize_twice_counterexample :
    submit_rtoken_price envT1 (initState 0 0 0) (.signed 0) .RDOT 1 5
      = .ok (stC1a, [.RTokenPriceEnough .RDOT 0 1 5, .SubmitRtokenPrice 0 .RDOT 0 1 5]) ∧
    submit_rtoken_price envT1 stC1a (.signed 0) .RDOT 1 7
      = .ok (stC1b, [.RTokenPriceEnough .RDOT 0 1 7, .SubmitRtokenPrice 0 .RDOT 0 1 7]) ∧
    stC1a.RTokenPrices .RDOT (0, 1) = none ∧
    stC1a.AccountRTokenPrices (0, .RDOT, 0, 1) = none ∧
    stC1a.CurrentRTokenPrice .RDOT = some 5 ∧
    stC1b.CurrentRTokenPrice .RDOT = some 7 ∧
    stC1a.HisRTokenPrice .RDOT (0, 1) = some 5 ∧
    stC1b.HisRTokenPrice .RDOT (0, 1) = some 7 :=
  ⟨rfl, rfl, by decide, by decide, by decide, by decide, by decide, by decide⟩

/-- **C1, amended.**  Provided the retention sweep cannot hit the bucket
being submitted to (retention window positive, or the bucket's period not
exceeding it — excluded only by the counterexample's window-0 scenario):
(1) an accepted submission emits the threshold-reached signal (the
finalization branch that writes `CurrentRTokenPrice` and `HisRTokenPrice`)
exactly when it brings the stored value-list length to the quorum
threshold; (2) along any sequence of accepted submissions to one bucket
under a fixed threshold, the finalization branch fires at most once; and
(3) once the bucket's stored count has reached the threshold, later
accepted submissions (still recorded) never fire it again and leave
`CurrentRTokenPrice` and `HisRTokenPrice` unchanged. -/
theorem c1_finalize_exactly_once_amended :
    (∀ (env : OracleEnv) (st : OracleState) (o : Origin) (symbol : RSymbol)
        (period price : Nat) (st' : OracleState) (evs : List OracleEvent),
        submit_rtoken_price env st o symbol period price = .ok (st', evs) →
        (firesFor symbol st.PeriodVersion period evs = true ↔
          (bucketList st symbol period ++ [price]).length = env.requestorThreshold)) ∧
    (∀ (env : OracleEnv) (symbol : RSymbol) (period : Nat) (st st'' : OracleState)
        (evss : List (List OracleEvent)),
        0 < st.DataReservePeriod ∨ period ≤ st.DataReservePeriod →
        SubmitChain env symbol period st st'' evss →
        evss.countP (firesFor symbol st.PeriodVersion period) ≤ 1) ∧
    (∀ (env : OracleEnv) (symbol : RSymbol) (period : Nat) (st st'' : OracleState)
        (evss : List (List OracleEvent)),
        0 < st.DataReservePeriod ∨ period ≤ st.DataReservePeriod →
        env.requestorThreshold ≤ (bucketList st symbol period).length →
        SubmitChain env symbol period st st'' evss →
        evss.countP (firesFor symbol st.PeriodVersion period) = 0 ∧
        st''.CurrentRTokenPrice = st.CurrentRTokenPrice ∧
        st''.HisRTokenPrice = st.HisRTokenPrice) :=
  ⟨fun env st o symbol period price st' evs h =>
      submit_rtoken_fires_iff env st o symbol period price st' evs h,
    fun env symbol period st st'' evss hkey hch =>
      submitChain_at_most_one env symbol period st st'' evss hch hkey,
    fun env symbol period st st'' evss hkey hlen hch =>
      submitChain_no_fire env symbol period st st'' evss hch hkey hlen⟩

/-- Witness for the amended C1 statement: a two-call chain reaching
threshold 2, whose recorded event lists contain exactly one
threshold-reached signal. -/
theorem c1_finalize_exactly_once_witness :
    (0 < (initState 0 0 5).DataReservePeriod ∨ 1 ≤ (initState 0 0 5).DataReservePeriod) ∧
    SubmitChain envT2 .RDOT 1 (initState 0 0 5) stW2
      [[.SubmitRtokenPrice 0 .RDOT 0 1 100],
       [.RTokenPriceEnough .RDOT 0 1 100, .SubmitRtokenPrice 1 .RDOT 0 1 200]] ∧
    List.countP (firesFor .RDOT 0 1)
      [[.SubmitRtokenPrice 0 .RDOT 0 1 100],
       [.RTokenPriceEnough .RDOT 0 1 100, .SubmitRtokenPrice 1 .RDOT 0 1 200]] ≤ 1 := by
  have hkey : 0 < (initState 0 0 5).DataReservePeriod
      ∨ 1 ≤ (initState 0 0 5).DataReservePeriod := by
    left
    show (0 : Nat) < 5
    norm_num
  have hchain : SubmitChain envT2 .RDOT 1 (initState 0 0 5) stW2
      [[.SubmitRtokenPrice 0 .RDOT 0 1 100],
       [.RTokenPriceEnough .RDOT 0 1 100, .SubmitRtokenPrice 1 .RDOT 0 1 200]] :=
    SubmitChain.cons _ stW1 _ 0 100 _ _ rfl
      (SubmitChain.cons _ stW2 _ 1 200 _ _ rfl (SubmitChain.nil _))
  exact ⟨hkey, hchain,
    c1_finalize_exactly_once_amended.2.1 envT2 .RDOT 1 (initState 0 0 5) stW2 _ hkey hchain⟩

/-! ### C2 -/

/-- **C2.**  When an accepted submission brings the bucket's value list to
exactly the quorum threshold, the value written to both
`CurrentRTokenPrice[symbol]` and `HisRTokenPrice[(symbol, periodVersion,
period)]` is the element at index `count / 2` (integer division) of the
value list sorted in descending order — a rank pick from a true descending
sort (sorted, and a permutation of the submitted values). -/
theorem c2_median_rule (env : OracleEnv) (st : OracleState) (o : Origin)
    (symbol : RSymbol) (period price : Nat) (st' : OracleState) (evs : List OracleEvent)
    (h : submit_rtoken_price env st o symbol period price = .ok (st', evs))
    (hq : (bucketList st symbol period ++ [price]).length = env.requestorThreshold) :
    ∃ v, (sortDesc (bucketList st symbol period ++ [price])).get?
          ((bucketList st symbol period ++ [price]).length / 2) = some v ∧
      st'.CurrentRTokenPrice symbol = some v ∧
      st'.HisRTokenPrice symbol (st.PeriodVersion, period) = some v ∧
      List.Sorted (fun a b => b ≤ a) (sortDesc (bucketList st symbol period ++ [price])) ∧
      (sortDesc (bucketList st symbol period ++ [price])).Perm
        (bucketList st symbol period ++ [price]) := by
  obtain ⟨v, hv, hvmem⟩ :=
    median_mem (bucketList st symbol period ++ [price]) (by simp)
  have hgetD : ((sortDesc (bucketList st symbol period ++ [price])).get?
      ((sortDesc (bucketList st symbol period ++ [price])).length / 2)).getD 0 = v := by
    rw [hv]
    rfl
  have hv' : (sortDesc (bucketList st symbol period ++ [price])).get?
      ((bucketList st symbol period ++ [price]).length / 2) = some v := by
    rw [← sortDesc_length]
    exact hv
  simp only [bucketList] at hgetD
  match o with
  | .root => simp [submit_rtoken_price, ensure_signed] at h
  | .unsigned => simp [submit_rtoken_price, ensure_signed] at h
  | .signed who =>
    unfold submit_rtoken_price ensure_signed at h
    simp only [] at h
    split_ifs at h with h1 h2 h3 h4 h5 h6 <;>
      [skip; skip; skip] <;>
      (injection h with h'
       injection h' with hst hevs
       subst hst)
    · refine ⟨v, hv', ?_, ?_, sortDesc_sorted _, sortDesc_perm _⟩
      · show upd1 st.CurrentRTokenPrice symbol _ symbol = some v
        rw [upd1_self, hgetD]
      · show upd2 st.HisRTokenPrice symbol (st.PeriodVersion, period) _ symbol
          (st.PeriodVersion, period) = some v
        rw [upd2_self, hgetD]
    · refine ⟨v, hv', ?_, ?_, sortDesc_sorted _, sortDesc_perm _⟩
      · show upd1 st.CurrentRTokenPrice symbol _ symbol = some v
        rw [upd1_self, hgetD]
      · show upd2 st.HisRTokenPrice symbol (st.PeriodVersion, period) _ symbol
          (st.PeriodVersion, period) = some v
        rw [upd2_self, hgetD]
    · exact absurd hq h4

/-- Witness for C2: submitted values 100, 200, 150 under quorum 3 finalize
to 150, and the even-quorum example picks 20 out of 10, 20, 30, 40. -/
theorem c2_median_rule_witness :
    submit_rtoken_price envT3 stM2 (.signed 2) .RDOT 1 150
      = .ok (stM3, [.RTokenPriceEnough .RDOT 0 1 150, .SubmitRtokenPrice 2 .RDOT 0 1 150]) ∧
    (bucketList stM2 .RDOT 1 ++ [150]).length = envT3.requestorThreshold ∧
    stM3.CurrentRTokenPrice .RDOT = some 150 ∧
    stM3.HisRTokenPrice .RDOT (0, 1) = some 150 ∧
    ((sortDesc [10, 20, 30, 40]).get? (4 / 2)).getD 0 = 20 := by
  obtain ⟨v, hv, hcur, hhis, -, -⟩ :=
    c2_median_rule envT3 stM2 (.signed 2) .RDOT 1 150 stM3
      [.RTokenPriceEnough .RDOT 0 1 150, .SubmitRtokenPrice 2 .RDOT 0 1 150] rfl (by decide)
  have hv150 : v = 150 := by
    have h : some (150 : Nat) = some v := by
      rw [← hv]
      rfl
    exact (Option.some.inj h).symm
  subst hv150
  exact ⟨rfl, by decide, hcur, hhis, by decide⟩

/-! ### C3 -/

/-- **C3.**  If a submission passes the admission checks, brings the bucket
to exactly the quorum threshold, and the computed median candidate is 0,
the whole call fails with `PriceZero`; in particular it returns no
post-state at all, so neither the per-reporter record nor the appended
value-list entry of this call is persisted (the all-or-nothing dispatch
boundary is modelled from the spec). -/
theorem c3_zero_median_aborts (env : OracleEnv) (st : OracleState) (who : AccountId)
    (symbol : RSymbol) (period price : Nat)
    (h1 : env.isRequestor who = true)
    (h2 : st.AccountRTokenPrices (who, symbol, st.PeriodVersion, period) = none)
    (h3 : 0 < price)
    (hq : (bucketList st symbol period ++ [price]).length = env.requestorThreshold)
    (hz : ((sortDesc (bucketList st symbol period ++ [price])).get?
        ((sortDesc (bucketList st symbol period ++ [price])).length / 2)).getD 0 = 0) :
    submit_rtoken_price env st (.signed who) symbol period price = .error .PriceZero ∧
    ∀ (st' : OracleState) (evs : List OracleEvent),
      submit_rtoken_price env st (.signed who) symbol period price ≠ .ok (st', evs) := by
  simp only [bucketList] at hq hz
  have hmain : submit_rtoken_price env st (.signed who) symbol period price
      = .error .PriceZero := by
    unfold submit_rtoken_price ensure_signed
    simp only [h1, h2, Option.isNone_none, if_true, if_pos h3, if_pos hq, hz]
    simp
  exact ⟨hmain, fun st' evs hc => by rw [hmain] at hc; cases hc⟩

/-- Witness for C3: submitting 3 on top of stored value 0 under quorum 2
selects median 0 and the whole call fails with `PriceZero`. -/
theorem c3_zero_median_aborts_witness :
    envT2.isRequestor 0 = true ∧
    stZ.AccountRTokenPrices (0, .RDOT, 0, 1) = none ∧
    (0 : Nat) < 3 ∧
    (bucketList stZ .RDOT 1 ++ [3]).length = envT2.requestorThreshold ∧
    ((sortDesc (bucketList stZ .RDOT 1 ++ [3])).get?
        ((sortDesc (bucketList stZ .RDOT 1 ++ [3])).length / 2)).getD 0 = 0 ∧
    submit_rtoken_price envT2 stZ (.signed 0) .RDOT 1 3 = .error .PriceZero :=
  ⟨rfl, by decide, by decide, by decide, by decide,
    (c3_zero_median_aborts envT2 stZ 0 .RDOT 1 3 rfl (by decide) (by decide) (by decide)
      (by decide)).1⟩

/-! ### C4 -/

/-- **C4.**  For both submission flavours the admission checks run in the
order requestor-authorization, duplicate record, positive price: a
non-requestor fails with `MustBeRequestor` (whatever the other checks
would say), an authorized reporter with an existing per-reporter record
fails with `PriceRepeated` (whatever the price), and an authorized
reporter without a record submitting price 0 fails with `ParamsErr`.
Every such failure returns `Except.error`, which carries no post-state, so
stored state is unchanged. -/
theorem c4_admission_check_order :
    (∀ (env : OracleEnv) (st : OracleState) (who : AccountId) (symbol : RSymbol)
        (period price v : Nat),
      (env.isRequestor who = false →
        submit_rtoken_price env st (.signed who) symbol period price
          = .error .MustBeRequestor) ∧
      (env.isRequestor who = true →
        st.AccountRTokenPrices (who, symbol, st.PeriodVersion, period) = some v →
        submit_rtoken_price env st (.signed who) symbol period price
          = .error .PriceRepeated) ∧
      (env.isRequestor who = true →
        st.AccountRTokenPrices (who, symbol, st.PeriodVersion, period) = none →
        price = 0 →
        submit_rtoken_price env st (.signed who) symbol period price
          = .error .ParamsErr)) ∧
    (∀ (env : OracleEnv) (st : OracleState) (who : AccountId) (period price v : Nat),
      (env.isRequestor who = false →
        submit_fis_price env st (.signed who) period price = .error .MustBeRequestor) ∧
      (env.isRequestor who = true →
        st.AccountFisPrices (who, st.PeriodVersion, period) = some v →
        submit_fis_price env st (.signed who) period price = .error .PriceRepeated) ∧
      (env.isRequestor who = true →
        st.AccountFisPrices (who, st.PeriodVersion, period) = none →
        price = 0 →
        submit_fis_price env st (.signed who) period price = .error .ParamsErr)) := by
  constructor
  · intro env st who symbol period price v
    refine ⟨fun hreq => ?_, fun hreq hdup => ?_, fun hreq hdup hzero => ?_⟩
    · unfold submit_rtoken_price ensure_signed
      simp [hreq]
    · unfold submit_rtoken_price ensure_signed
      simp [hreq, hdup]
    · unfold submit_rtoken_price ensure_signed
      simp [hreq, hdup, hzero]
  · intro env st who period price v
    refine ⟨fun hreq => ?_, fun hreq hdup => ?_, fun hreq hdup hzero => ?_⟩
    · unfold submit_fis_price ensure_signed
      simp [hreq]
    · unfold submit_fis_price ensure_signed
      simp [hreq, hdup]
    · unfold submit_fis_price ensure_signed
      simp [hreq, hdup, hzero]

/-- Witness for C4 on concrete states: the duplicate check fires for a
reporter whose record exists, and the zero-price check fires otherwise. -/
theorem c4_admission_check_order_witness :
    stW1.AccountRTokenPrices (0, .RDOT, 0, 1) = some 100 ∧
    envT2.isRequestor 0 = true ∧
    submit_rtoken_price envT2 stW1 (.signed 0) .RDOT 1 9 = .error .PriceRepeated ∧
    (initState 0 0 5).AccountRTokenPrices (1, .RDOT, 0, 1) = none ∧
    submit_rtoken_price envT2 (initState 0 0 5) (.signed 1) .RDOT 1 0 = .error .ParamsErr :=
  ⟨by decide, rfl,
    (c4_admission_check_order.1 envT2 stW1 0 .RDOT 1 9 100).2.1 rfl (by decide),
    by decide,
    (c4_admission_check_order.1 envT2 (initState 0 0 5) 1 .RDOT 1 0 100).2.2 rfl (by decide)
      rfl⟩

/-! ### C5 -/

/-- **C5.**  On a finalizing submission the retention sweep runs only when
`period > DataReservePeriod`; when it runs it removes exactly the bucket
value list for period `period - DataReservePeriod` and the triggering
reporter's per-reporter record for that stale key; every other bucket list
and per-reporter record (in particular every other reporter's) is
untouched apart from this call's own insertions at the current period, and
no `CurrentRTokenPrice` or `HisRTokenPrice` entry is ever removed. -/
theorem c5_retention_scope (env : OracleEnv) (st : OracleState) (who : AccountId)
    (symbol : RSymbol) (period price : Nat) (st' : OracleState) (evs : List OracleEvent)
    (h : submit_rtoken_price env st (.signed who) symbol period price = .ok (st', evs))
    (hq : (bucketList st symbol period ++ [price]).length = env.requestorThreshold) :
    (¬ period > st.DataReservePeriod →
      (∀ s k, (st.RTokenPrices s k).isSome → (st'.RTokenPrices s k).isSome) ∧
      (∀ k, (st.AccountRTokenPrices k).isSome → (st'.AccountRTokenPrices k).isSome)) ∧
    (period > st.DataReservePeriod →
      st'.RTokenPrices symbol (st.PeriodVersion, period - st.DataReservePeriod) = none ∧
      st'.AccountRTokenPrices (who, symbol, st.PeriodVersion,
        period - st.DataReservePeriod) = none ∧
      (∀ s k, ¬(s = symbol ∧ k = (st.PeriodVersion, period - st.DataReservePeriod)) →
        ¬(s = symbol ∧ k = (st.PeriodVersion, period)) →
        st'.RTokenPrices s k = st.RTokenPrices s k) ∧
      (∀ k, k ≠ (who, symbol, st.PeriodVersion, period - st.DataReservePeriod) →
        k ≠ (who, symbol, st.PeriodVersion, period) →
        st'.AccountRTokenPrices k = st.AccountRTokenPrices k)) ∧
    (∀ s, (st.CurrentRTokenPrice s).isSome → (st'.CurrentRTokenPrice s).isSome) ∧
    (∀ s k, (st.HisRTokenPrice s k).isSome → (st'.HisRTokenPrice s k).isSome) := by
  simp only [bucketList] at hq
  unfold submit_rtoken_price ensure_signed at h
  simp only [] at h
  split_ifs at h with h1 h2 h3 h5 h6 <;>
    [skip; skip] <;>
    (injection h with h'
     injection h' with hst hevs
     subst hst)
  · refine ⟨fun hns => absurd h6 hns, fun _ => ⟨?_, ?_, ?_, ?_⟩, ?_, ?_⟩
    · show upd2 _ symbol (st.PeriodVersion, period - st.DataReservePeriod) none symbol
        (st.PeriodVersion, period - st.DataReservePeriod) = none
      exact upd2_self _ _ _ _
    · show upd1 _ (who, symbol, st.PeriodVersion, period - st.DataReservePeriod) none
        (who, symbol, st.PeriodVersion, period - st.DataReservePeriod) = none
      exact upd1_self _ _ _
    · intro s k hs1 hs2
      show upd2 (upd2 st.RTokenPrices symbol (st.PeriodVersion, period) _) symbol
        (st.PeriodVersion, period - st.DataReservePeriod) none s k = st.RTokenPrices s k
      rw [upd2_ne _ _ _ _ _ _ hs1, upd2_ne _ _ _ _ _ _ hs2]
    · intro k hk1 hk2
      show upd1 (upd1 st.AccountRTokenPrices (who, symbol, st.PeriodVersion, period) _)
        (who, symbol, st.PeriodVersion, period - st.DataReservePeriod) none k
        = st.AccountRTokenPrices k
      rw [upd1_ne _ _ _ _ hk1, upd1_ne _ _ _ _ hk2]
    · intro s hs
      show (upd1 st.CurrentRTokenPrice symbol _ s).isSome
      rcases upd1_cases st.CurrentRTokenPrice symbol s
          (some (((sortDesc ((st.RTokenPrices symbol (st.PeriodVersion, period)).getD []
            ++ [price])).get? ((sortDesc ((st.RTokenPrices symbol
            (st.PeriodVersion, period)).getD [] ++ [price])).length / 2)).getD 0)) with hc | hc
      · rw [hc]
        rfl
      · rw [hc]
        exact hs
    · intro s k hs
      show (upd2 st.HisRTokenPrice symbol (st.PeriodVersion, period) _ s k).isSome
      rcases upd2_cases st.HisRTokenPrice symbol s (st.PeriodVersion, period) k
          (some (((sortDesc ((st.RTokenPrices symbol (st.PeriodVersion, period)).getD []
            ++ [price])).get? ((sortDesc ((st.RTokenPrices symbol
            (st.PeriodVersion, period)).getD [] ++ [price])).length / 2)).getD 0)) with hc | hc
      · rw [hc]
        rfl
      · rw [hc]
        exact hs
  · refine ⟨fun _ => ⟨?_, ?_⟩, fun hp => absurd hp h6, ?_, ?_⟩
    · intro s k hs
      show (upd2 st.RTokenPrices symbol (st.PeriodVersion, period) _ s k).isSome
      rcases upd2_cases st.RTokenPrices symbol s (st.PeriodVersion, period) k
          (some ((st.RTokenPrices symbol (st.PeriodVersion, period)).getD [] ++ [price]))
          with hc | hc
      · rw [hc]
        rfl
      · rw [hc]
        exact hs
    · intro k hk
      show (upd1 st.AccountRTokenPrices (who, symbol, st.PeriodVersion, period)
        (some price) k).isSome
      rcases upd1_cases st.AccountRTokenPrices (who, symbol, st.PeriodVersion, period) k
          (some price) with hc | hc
      · rw [hc]
        rfl
      · rw [hc]
        exact hk
    · intro s hs
      show (upd1 st.CurrentRTokenPrice symbol _ s).isSome
      rcases upd1_cases st.CurrentRTokenPrice symbol s
          (some (((sortDesc ((st.RTokenPrices symbol (st.PeriodVersion, period)).getD []
            ++ [price])).get? ((sortDesc ((st.RTokenPrices symbol
            (st.PeriodVersion, period)).getD [] ++ [price])).length / 2)).getD 0)) with hc | hc
      · rw [hc]
        rfl
      · rw [hc]
        exact hs
    · intro s k hs
      show (upd2 st.HisRTokenPrice symbol (st.PeriodVersion, period) _ s k).isSome
      rcases upd2_cases st.HisRTokenPrice symbol s (st.PeriodVersion, period) k
          (some (((sortDesc ((st.RTokenPrices symbol (st.PeriodVersion, period)).getD []
            ++ [price])).get? ((sortDesc ((st.RTokenPrices symbol
            (st.PeriodVersion, period)).getD [] ++ [price])).length / 2)).getD 0)) with hc | hc
      · rw [hc]
        rfl
      · rw [hc]
        exact hs

/-- Witness for C5: a finalizing call at period 2 with retention window 1
leaves the stale period-1 bucket list and the triggering reporter's stale
record empty. -/
theorem c5_retention_scope_witness :
    submit_rtoken_price envT1 (initState 0 0 1) (.signed 0) .RDOT 2 5
      = .ok (stC5, [.RTokenPriceEnough .RDOT 0 2 5, .SubmitRtokenPrice 0 .RDOT 0 2 5]) ∧
    (bucketList (initState 0 0 1) .RDOT 2 ++ [5]).length = envT1.requestorThreshold ∧
    2 > (initState 0 0 1).DataReservePeriod ∧
    stC5.RTokenPrices .RDOT (0, 1) = none ∧
    stC5.AccountRTokenPrices (0, .RDOT, 0, 1) = none := by
  obtain ⟨-, hrun, -, -⟩ :=
    c5_retention_scope envT1 (initState 0 0 1) 0 .RDOT 2 5 stC5
      [.RTokenPriceEnough .RDOT 0 2 5, .SubmitRtokenPrice 0 .RDOT 0 2 5] rfl (by decide)
  obtain ⟨hlist, hacct, -, -⟩ := hrun (by decide)
  exact ⟨rfl, by decide, by decide, hlist, hacct⟩

/-! ### C6 -/

/-- A successful fis submission leaves the scalar storage untouched. -/
theorem submit_fis_scalars (env : OracleEnv) (st : OracleState) (o : Origin)
    (period price : Nat) (st' : OracleState) (evs : List OracleEvent)
    (h : submit_fis_price env st o period price = .ok (st', evs)) :
    st'.PeriodVersion = st.PeriodVersion ∧
    st'.DataReservePeriod = st.DataReservePeriod := by
  match o with
  | .root => simp [submit_fis_price, ensure_signed] at h
  | .unsigned => simp [submit_fis_price, ensure_signed] at h
  | .signed who =>
    unfold submit_fis_price ensure_signed at h
    simp only [] at h
    split_ifs at h with h1 h2 h3 h4 h5 h6 <;>
      [skip; skip; skip] <;>
      (injection h with h'
       injection h' with hst hevs
       subst hst) <;>
      exact ⟨rfl, rfl⟩

/-- A successful `set_period_block_number` call comes from root, requires a
positive interval, stores it and increments the period version by one. -/
theorem set_period_block_number_ok (st : OracleState) (o : Origin) (block_number : Nat)
    (st' : OracleState) (evs : List OracleEvent)
    (h : set_period_block_number st o block_number = .ok (st', evs)) :
    st'.PeriodVersion = st.PeriodVersion + 1 ∧
    st'.PeriodBlockNumber = block_number := by
  match o with
  | .signed who => simp [set_period_block_number, ensure_root] at h
  | .unsigned => simp [set_period_block_number, ensure_root] at h
  | .root =>
    unfold set_period_block_number ensure_root at h
    simp only [] at h
    split_ifs at h with h1
    injection h with h'
    injection h' with hst hevs
    subst hst
    exact ⟨rfl, rfl⟩

/-- A successful `set_data_reserve_period` call leaves the period version
and block-number interval untouched. -/
theorem set_data_reserve_period_ok (st : OracleState) (o : Origin) (reserve_period : Nat)
    (st' : OracleState) (evs : List OracleEvent)
    (h : set_data_reserve_period st o reserve_period = .ok (st', evs)) :
    st'.PeriodVersion = st.PeriodVersion ∧
    st'.PeriodBlockNumber = st.PeriodBlockNumber := by
  match o with
  | .signed who => simp [set_data_reserve_period, ensure_root] at h
  | .unsigned => simp [set_data_reserve_period, ensure_root] at h
  | .root =>
    unfold set_data_reserve_period ensure_root at h
    simp only [] at h
    split_ifs at h with h1
    injection h with h'
    injection h' with hst hevs
    subst hst
    exact ⟨rfl, rfl⟩

/-- No successful call ever decreases the period version. -/
theorem step_periodVersion_mono {st st' : OracleState} (h : Step st st') :
    st.PeriodVersion ≤ st'.PeriodVersion := by
  cases h with
  | rtoken env st o symbol period price st' evs h =>
    exact le_of_eq
      (submit_rtoken_step_effects env st o symbol period price st' evs h).1.symm
  | fis env st o period price st' evs h =>
    exact le_of_eq (submit_fis_scalars env st o period price st' evs h).1.symm
  | periodBlock st o block_number st' evs h =>
    rw [(set_period_block_number_ok st o block_number st' evs h).1]
    omega
  | reservePeriod st o reserve_period st' evs h =>
    exact le_of_eq (set_data_reserve_period_ok st o reserve_period st' evs h).1.symm

/-- **C6.**  `set_period_block_number` with a root caller and a positive
interval stores the interval, increments the period version by exactly 1
and emits the change signal with the new version; a zero interval fails
with `ParamsErr` and a non-root caller fails with `BadOrigin` (both
returning no post-state, hence no mutation); and along any sequence of
successful calls of any kind the period version never decreases. -/
theorem c6_epoch_advance :
    (∀ (st : OracleState) (bn : Nat), 0 < bn →
      set_period_block_number st .root bn
        = .ok ({ st with PeriodBlockNumber := bn, PeriodVersion := st.PeriodVersion + 1 },
               [.PeriodBlockNumberChanged (st.PeriodVersion + 1) bn])) ∧
    (∀ st : OracleState, set_period_block_number st .root 0 = .error .ParamsErr) ∧
    (∀ (st : OracleState) (o : Origin) (bn : Nat), o ≠ .root →
      set_period_block_number st o bn = .error .BadOrigin) ∧
    (∀ st st' : OracleState, Relation.ReflTransGen Step st st' →
      st.PeriodVersion ≤ st'.PeriodVersion) := by
  refine ⟨?_, ?_, ?_, ?_⟩
  · intro st bn hbn
    unfold set_period_block_number ensure_root
    simp only [if_pos hbn]
  · intro st
    unfold set_period_block_number ensure_root
    simp
  · intro st o bn ho
    match o with
    | .root => exact absurd rfl ho
    | .signed who => rfl
    | .unsigned => rfl
  · intro st st' hsteps
    induction hsteps with
    | refl => exact le_refl _
    | tail _ hstep ih => exact le_trans ih (step_periodVersion_mono hstep)

/-- Witness for C6: advancing with interval 3 from a state at period
version 0 yields period version 1 and stores the interval. -/
theorem c6_epoch_advance_witness :
    (0 : Nat) < 3 ∧
    set_period_block_number (initState 0 0 1) .root 3
      = .ok ({ initState 0 0 1 with PeriodBlockNumber := 3, PeriodVersion := 1 },
             [.PeriodBlockNumberChanged 1 3]) :=
  ⟨by decide, c6_epoch_advance.1 (initState 0 0 1) 3 (by decide)⟩

/-! ### C8 -/

/-- **C8.**  In every reachable state, every price stored in the canonical
slots (`CurrentRTokenPrice`, `CurrentFisPrice`) and in the historical
archives (`HisRTokenPrice`, `HisFisPrice`) is strictly positive: the only
writer is the finalization branch, which checks its median candidate is
positive before writing. -/
theorem c8_stored_prices_positive (st : OracleState) (h : Reachable st) :
    (∀ s v, st.CurrentRTokenPrice s = some v → 0 < v) ∧
    (∀ s k v, st.HisRTokenPrice s k = some v → 0 < v) ∧
    (∀ v, st.CurrentFisPrice = some v → 0 < v) ∧
    (∀ k v, st.HisFisPrice k = some v → 0 < v) :=
  ⟨(reachable_positive h).currentRToken, (reachable_positive h).hisRToken,
    (reachable_positive h).currentFis, (reachable_positive h).hisFis⟩

/-- The two-call chain behind stW2 consists of successful dispatches, so
stW2 is reachable. -/
theorem stW2_reachable : Reachable stW2 :=
  ⟨0, 0, 5,
    Relation.ReflTransGen.tail
      (Relation.ReflTransGen.tail (Relation.ReflTransGen.refl)
        (Step.rtoken envT2 (initState 0 0 5) (.signed 0) .RDOT 1 100 stW1
          [.SubmitRtokenPrice 0 .RDOT 0 1 100] rfl))
      (Step.rtoken envT2 stW1 (.signed 1) .RDOT 1 200 stW2
        [.RTokenPriceEnough .RDOT 0 1 100, .SubmitRtokenPrice 1 .RDOT 0 1 200] rfl)⟩

/-- Witness for C8: the reachable finalized state stW2 stores the positive
canonical price 100. -/
theorem c8_stored_prices_positive_witness :
    Reachable stW2 ∧ stW2.CurrentRTokenPrice .RDOT = some 100 ∧ (0 : Nat) < 100 :=
  ⟨stW2_reachable, by decide,
    (c8_stored_prices_positive stW2 stW2_reachable).1 .RDOT 100 (by decide)⟩

/-! ### C9 -/

/-- **C9.**  From any reachable state, no submission of either flavour can
fail with `PriceZero`: every value admitted into a bucket passed the
positive-price check, so on a finalizing call the sorted list is non-empty
and all-positive, the index `count / 2` is in bounds (the `unwrap_or(0)`
default is never taken), and the selected median candidate is positive. -/
theorem c9_zero_median_unreachable (st : OracleState) (h : Reachable st) :
    (∀ (env : OracleEnv) (o : Origin) (symbol : RSymbol) (period price : Nat),
      submit_rtoken_price env st o symbol period price ≠ .error .PriceZero) ∧
    (∀ (env : OracleEnv) (o : Origin) (period price : Nat),
      submit_fis_price env st o period price ≠ .error .PriceZero) := by
  have inv := reachable_positive h
  constructor
  · intro env o symbol period price hc
    match o with
    | .root => simp [submit_rtoken_price, ensure_signed] at hc
    | .unsigned => simp [submit_rtoken_price, ensure_signed] at hc
    | .signed who =>
      unfold submit_rtoken_price ensure_signed at hc
      simp only [] at hc
      split_ifs at hc with h1 h2 h3 h4 h5 <;> try simp at hc
      exact h5 (median_pos
        ((st.RTokenPrices symbol (st.PeriodVersion, period)).getD [] ++ [price])
        (by simp)
        (fun x hx => by
          rcases mem_getD_append hx with ⟨l0, hl0, hxl0⟩ | hxp
          · exact inv.rtokenLists _ _ _ hl0 x hxl0
          · rw [hxp]
            exact h3))
  · intro env o period price hc
    match o with
    | .root => simp [submit_fis_price, ensure_signed] at hc
    | .unsigned => simp [submit_fis_price, ensure_signed] at hc
    | .signed who =>
      unfold submit_fis_price ensure_signed at hc
      simp only [] at hc
      split_ifs at hc with h1 h2 h3 h4 h5 <;> try simp at hc
      exact h5 (median_pos
        ((st.FisPrices (st.PeriodVersion, period)).getD [] ++ [price])
        (by simp)
        (fun x hx => by
          rcases mem_getD_append hx with ⟨l0, hl0, hxl0⟩ | hxp
          · exact inv.fisLists _ _ hl0 x hxl0
          · rw [hxp]
            exact h3))

/-- Witness for C9: from the reachable state stW2 no rtoken submission can
return `PriceZero`. -/
theorem c9_zero_median_unreachable_witness :
    Reachable stW2 ∧
    submit_rtoken_price envT3 stW2 (.signed 2) .RDOT 1 150 ≠ .error .PriceZero :=
  ⟨stW2_reachable,
    (c9_zero_median_unreachable stW2 stW2_reachable).1 envT3 (.signed 2) .RDOT 1 150⟩

/-! ### C10 -/

/-- **C10.**  A successful, non-finalizing submission (appended length not
equal to the threshold) writes exactly the appended bucket value list and
this reporter's per-reporter record and nothing else: the resulting state
is the pointwise update of the old one at those two keys, the only emitted
event is the submission record, and no stored entry is removed (in
particular no aged-out data is purged).  This holds for both flavours. -/
theorem c10_nonfinal_frame :
    (∀ (env : OracleEnv) (st : OracleState) (who : AccountId) (symbol : RSymbol)
        (period price : Nat) (st' : OracleState) (evs : List OracleEvent),
      submit_rtoken_price env st (.signed who) symbol period price = .ok (st', evs) →
      (bucketList st symbol period ++ [price]).length ≠ env.requestorThreshold →
      st' = { st with
        RTokenPrices := upd2 st.RTokenPrices symbol (st.PeriodVersion, period)
          (some (bucketList st symbol period ++ [price])),
        AccountRTokenPrices := upd1 st.AccountRTokenPrices
          (who, symbol, st.PeriodVersion, period) (some price) } ∧
      evs = [.SubmitRtokenPrice who symbol st.PeriodVersion period price] ∧
      (∀ s k, (st.RTokenPrices s k).isSome → (st'.RTokenPrices s k).isSome) ∧
      (∀ k, (st.AccountRTokenPrices k).isSome → (st'.AccountRTokenPrices k).isSome)) ∧
    (∀ (env : OracleEnv) (st : OracleState) (who : AccountId)
        (period price : Nat) (st' : OracleState) (evs : List OracleEvent),
      submit_fis_price env st (.signed who) period price = .ok (st', evs) →
      ((st.FisPrices (st.PeriodVersion, period)).getD [] ++ [price]).length
        ≠ env.requestorThreshold →
      st' = { st with
        FisPrices := upd1 st.FisPrices (st.PeriodVersion, period)
          (some ((st.FisPrices (st.PeriodVersion, period)).getD [] ++ [price])),
        AccountFisPrices := upd1 st.AccountFisPrices
          (who, st.PeriodVersion, period) (some price) } ∧
      evs = [.SubmitFisPrice who st.PeriodVersion period price] ∧
      (∀ k, (st.FisPrices k).isSome → (st'.FisPrices k).isSome) ∧
      (∀ k, (st.AccountFisPrices k).isSome → (st'.AccountFisPrices k).isSome)) := by
  constructor
  · intro env st who symbol period price st' evs h hne
    simp only [bucketList] at hne
    unfold submit_rtoken_price ensure_signed at h
    simp only [] at h
    split_ifs at h with h1 h2 h3
    injection h with h'
    injection h' with hst hevs
    subst hst
    refine ⟨rfl, hevs.symm, ?_, ?_⟩
    · intro s k hs
      show (upd2 st.RTokenPrices symbol (st.PeriodVersion, period) _ s k).isSome
      rcases upd2_cases st.RTokenPrices symbol s (st.PeriodVersion, period) k
          (some ((st.RTokenPrices symbol (st.PeriodVersion, period)).getD [] ++ [price]))
          with hc | hc
      · rw [hc]
        rfl
      · rw [hc]
        exact hs
    · intro k hk
      show (upd1 st.AccountRTokenPrices (who, symbol, st.PeriodVersion, period)
        (some price) k).isSome
      rcases upd1_cases st.AccountRTokenPrices (who, symbol, st.PeriodVersion, period) k
          (some price) with hc | hc
      · rw [hc]
        rfl
      · rw [hc]
        exact hk
  · intro env st who period price st' evs h hne
    unfold submit_fis_price ensure_signed at h
    simp only [] at h
    split_ifs at h with h1 h2 h3
    injection h with h'
    injection h' with hst hevs
    subst hst
    refine ⟨rfl, hevs.symm, ?_, ?_⟩
    · intro k hk
      show (upd1 st.FisPrices (st.PeriodVersion, period) _ k).isSome
      rcases upd1_cases st.FisPrices (st.PeriodVersion, period) k
          (some ((st.FisPrices (st.PeriodVersion, period)).getD [] ++ [price]))
          with hc | hc
      · rw [hc]
        rfl
      · rw [hc]
        exact hk
    · intro k hk
      show (upd1 st.AccountFisPrices (who, st.PeriodVersion, period)
        (some price) k).isSome
      rcases upd1_cases st.AccountFisPrices (who, st.PeriodVersion, period) k
          (some price) with hc | hc
      · rw [hc]
        rfl
      · rw [hc]
        exact hk

/-- Witness for C10: reporter 0's first submission under quorum 3 does not
finalize and the resulting state is exactly the two insertions. -/
theorem c10_nonfinal_frame_witness :
    submit_rtoken_price envT3 (initState 0 0 10) (.signed 0) .RDOT 1 100
      = .ok (stM1, [.SubmitRtokenPrice 0 .RDOT 0 1 100]) ∧
    (bucketList (initState 0 0 10) .RDOT 1 ++ [100]).length ≠ envT3.requestorThreshold ∧
    stM1 = { initState 0 0 10 with
      RTokenPrices := upd2 (initState 0 0 10).RTokenPrices .RDOT (0, 1) (some [100]),
      AccountRTokenPrices := upd1 (initState 0 0 10).AccountRTokenPrices
        (0, .RDOT, 0, 1) (some 100) } :=
  ⟨rfl, by decide,
    (c10_nonfinal_frame.1 envT3 (initState 0 0 10) 0 .RDOT 1 100 stM1
      [.SubmitRtokenPrice 0 .RDOT 0 1 100] rfl (by decide)).1⟩

theorem upd2_lift {γ : Type} (F : Nat × Nat → Option γ) (s0 : RSymbol) (k0 : Nat × Nat)
    (v : Option γ) :
    upd2 (fun s k => if s = s0 then F k else none) s0 k0 v
      = fun s k => if s = s0 then upd1 F k0 v k else none := by
  funext s k
  simp only [upd1, upd2]
  split_ifs <;> simp_all

theorem upd1_lift_acct {γ : Type} (A : AccountId × Nat × Nat → Option γ) (s0 : RSymbol)
    (who : AccountId) (pv p : Nat) (v : Option γ) :
    upd1 (fun k : AccountId × RSymbol × Nat × Nat =>
        if k.2.1 = s0 then A (k.1, k.2.2.1, k.2.2.2) else none) (who, s0, pv, p) v
      = fun k => if k.2.1 = s0 then upd1 A (who, pv, p) v (k.1, k.2.2.1, k.2.2.2) else none := by
  funext k
  obtain ⟨a, s, v', p'⟩ := k
  simp only [upd1, Prod.mk.injEq]
  split_ifs <;> simp_all

theorem upd1_lift_cur {γ : Type} (C : Option γ) (s0 : RSymbol) (v : Option γ) :
    upd1 (fun s => if s = s0 then C else none) s0 v
      = fun s => if s = s0 then v else none := by
  funext s
  simp only [upd1]
  split_ifs <;> simp_all

/-- **C7.**  For every reporter, period, price, state and every choice of
the sentinel symbol `s0`, `submit_fis_price` computes the same outcome as
`submit_rtoken_price` instantiated at `s0` — same acceptance or rejection
with the same error, same appended value, same quorum check, same median
selection, same retention sweep — modulo re-reading the fis storage
namespaces as the rtoken namespaces of `s0` (`liftFis`) and renaming the
emitted events (`fisEventToRtoken`). -/
theorem c7_fis_refines_rtoken (env : OracleEnv) (st : OracleState) (o : Origin)
    (period price : Nat) (s0 : RSymbol) :
    submit_rtoken_price env (liftFis s0 st) o s0 period price
      = (submit_fis_price env st o period price).map
          (fun p => (liftFis s0 p.1, p.2.map (fisEventToRtoken s0))) := by
  match o with
  | .root => rfl
  | .unsigned => rfl
  | .signed who =>
    unfold submit_rtoken_price submit_fis_price ensure_signed
    simp only [liftFis, eq_self_iff_true, if_true]
    split_ifs <;>
      simp only [Except.map, liftFis, upd2_lift, upd1_lift_acct, upd1_lift_cur,
        List.map_cons, List.map_nil, fisEventToRtoken]
